import Mathlib

/-!
Shallow embedding of the training/validation orchestration logic of the
real2sim_multitask repository (trainers/train_multi_task.py,
trainers/train_unet.py, test_gan.py, GUI/main.py).

Tensors are modelled as flattened lists of rationals; the learned networks
(generator, discriminator) and the library SSIM metric are opaque parameters,
since their internals are delegated to the ML framework.  All control flow,
loss arithmetic, metric arithmetic, checkpoint policy, learning-rate staging
and loop structure are translated from the Python source.
-/

namespace Real2Sim

/-- A tensor, flattened to a list of its (rational-valued) elements. -/
abbrev T := List ℚ

/-- Elementwise subtraction `a - b` (torch broadcasting of equal shapes). -/
def tensor_sub (a b : T) : T := List.zipWith (fun x y => x - y) a b

/-- `torch.square`: elementwise square. -/
def tensor_square (a : T) : T := a.map (fun x => x * x)

/-- `.mean()`: sum of elements divided by element count. -/
def tensor_mean (a : T) : ℚ := a.sum / a.length

/-- `nn.MSELoss()(pred, target)`: mean over elements of squared differences
(shapes agree in every call site, so the zip covers every element). -/
def mseLoss (pred target : T) : ℚ :=
  tensor_mean (tensor_square (tensor_sub pred target))

/-- `nn.L1Loss()(pred, target)`: mean over elements of absolute differences. -/
def l1Loss (pred target : T) : ℚ :=
  tensor_mean ((tensor_sub pred target).map (fun x => |x|))

/-- `torch.ones(b, 1, n, n)` flattened: the all-ones "real" gan label. -/
def gan_label_real (b n : ℕ) : T := List.replicate (b * 1 * n * n) (1 : ℚ)

/-- `torch.zeros(b, 1, n, n)` flattened: the all-zeros "fake" gan label. -/
def gan_label_fake (b n : ℕ) : T := List.replicate (b * 1 * n * n) (0 : ℚ)

/-- The two optimiser updates a multi-task training step can perform,
in the order they are performed. -/
inductive Phase where
  | generatorUpdate
  | discriminatorUpdate
deriving DecidableEq, Repr

/-- Result of one `trainer.train_step` of train_multi_task.py: the generator
prediction, the loss backpropagated through the generator, the loss
backpropagated through the discriminator (when one is present), and the
updates performed in order. -/
structure StepResult where
  predSim : T
  genLoss : ℚ
  discrimLoss : Option ℚ
  phases : List Phase
deriving Repr

/-- `trainer.train_step(sample)` of train_multi_task.py.  `model` is the
generator, `discrim` the optional discriminator (a function of the candidate
simulated image and the conditioning real image), `batchN` the batch size
`im_real.size(0)` and `outSize` the discriminator patch-grid size
`self.discriminator.out_size`.  `.detach()` leaves the tensor value unchanged
(it only severs the autograd graph), so `pred_sim.detach()` is `pred_sim`. -/
def train_step (model : T → T) (discrim : Option (T → T → T))
    (batchN outSize : ℕ) (im_real im_sim : T) : StepResult :=
  match discrim with
  | some d =>
      let gan_gt_real := gan_label_real batchN outSize
      let gan_gt_fake := gan_label_fake batchN outSize
      let pred_sim := model im_real
      let pred_fake := d pred_sim im_real
      let loss_gan := mseLoss pred_fake gan_gt_real
      let loss_pixel := l1Loss pred_sim im_sim
      let loss := 1/100 * loss_gan + loss_pixel
      let pred_real := d im_sim im_real
      let loss_real := mseLoss pred_real gan_gt_real
      let pred_fake2 := d pred_sim im_real
      let loss_fake := mseLoss pred_fake2 gan_gt_fake
      let loss_d := 1/2 * (loss_real + loss_fake)
      { predSim := pred_sim, genLoss := loss, discrimLoss := some loss_d,
        phases := [Phase.generatorUpdate, Phase.discriminatorUpdate] }
  | none =>
      let pred_sim := model im_real
      { predSim := pred_sim, genLoss := mseLoss pred_sim im_sim,
        discrimLoss := none, phases := [Phase.generatorUpdate] }

/-- The per-batch validation MSE of both trainers:
`torch.square(pred_sim - im_sim).mean()`. -/
def val_batch_mse (pred_sim im_sim : T) : ℚ :=
  tensor_mean (tensor_square (tensor_sub pred_sim im_sim))

/-- Whether the network is in training mode (`model.train()`) or evaluation
mode (`model.eval()`). -/
inductive Mode where
  | train
  | eval
deriving DecidableEq, Repr

/-- Result of `trainer.val_all` (identical metric logic in both trainers):
the per-batch metric lists `MSEs` and `SSIMs`, the stored averages
`self.MSE` and `self.ssim`, the mode the network was in while each
validation batch was processed, and the mode the network is left in. -/
structure ValOut where
  MSEs : List ℚ
  SSIMs : List ℚ
  MSE : ℚ
  ssim : ℚ
  batchModes : List Mode
  modeAfter : Mode
deriving Repr

/-- `trainer.val_all` of train_multi_task.py: `self.model.eval()`, then for
every validation data loader in turn and every batch of it, run the generator
and append `torch.square(pred_sim - im_sim).mean()` and the library SSIM of
prediction against target; then `self.model.train()` and store the two sums
divided by the number of batches.  `model` is the generator, `ssimF` the
opaque library SSIM, `loaders` the value list of `self.torch_dataloaders_val`
(train_unet.py is the single-loader instance `[loader]`); a batch is a
`(real, sim)` tensor pair. -/
def val_all (model : T → T) (ssimF : T → T → ℚ)
    (loaders : List (List (T × T))) : ValOut :=
  let mode_during := Mode.eval
  let batches := loaders.flatten
  let MSEs := batches.map (fun b => val_batch_mse (model b.1) b.2)
  let SSIMs := batches.map (fun b => ssimF (model b.1) b.2)
  { MSEs := MSEs
    SSIMs := SSIMs
    MSE := MSEs.sum / MSEs.length
    ssim := SSIMs.sum / SSIMs.length
    batchModes := batches.map (fun _ => mode_during)
    modeAfter := Mode.train }

/-- `get_mse(generator, im_real_pt, image_sim, ims_io)` of test_gan.py:
runs the generator, converts to numpy (`ims_io.to_numpy`, an opaque image
conversion) and returns `(generated_sim_image - image_sim).mean()` together
with the raw prediction. -/
def get_mse (generator : T → T) (to_numpy : T → T)
    (im_real_pt image_sim : T) : ℚ × T :=
  let pred_sim := generator im_real_pt
  let generated_sim_image := to_numpy pred_sim
  (tensor_mean (tensor_sub generated_sim_image image_sim), pred_sim)

/-- Outcome of the code inside a `try:` block of GUI/main.py: either the
file dialog returned a path (`""` when the user cancelled the dialog), or
some exception was raised. -/
inductive TryOutcome where
  | ok (path : String)
  | exn
deriving DecidableEq, Repr

/-- The GUI state touched by the two image-selection callbacks of
GUI/main.py: the recorded file paths, the status-bar message, the images
actually loaded and displayed into the window after a selection, and the
console output. -/
structure GuiState where
  image1_file : Option String
  image2_file : Option String
  statusMessage : Option String
  displayedImages : List String
  printed : List String
deriving DecidableEq, Repr

/-- `make_app.choose_image1` of GUI/main.py: inside `try`, open the file
dialog and record the chosen path; when the path is non-empty only a
placeholder message is printed (the image-load body is commented out), so no
image is loaded or displayed.  Any exception is caught and the status bar
shows `Cancelled Load`. -/
def choose_image1 (dialog : TryOutcome) (st : GuiState) : GuiState :=
  match dialog with
  | TryOutcome.ok path =>
      let st1 := { st with image1_file := some path }
      if path ≠ "" then
        { st1 with printed := st1.printed ++ ["now impliment load image"] }
      else st1
  | TryOutcome.exn => { st with statusMessage := some "Cancelled Load" }

/-- `make_app.choose_image2` of GUI/main.py: same body as `choose_image1`
with the path recorded into `image2_file`. -/
def choose_image2 (dialog : TryOutcome) (st : GuiState) : GuiState :=
  match dialog with
  | TryOutcome.ok path =>
      let st1 := { st with image2_file := some path }
      if path ≠ "" then
        { st1 with printed := st1.printed ++ ["now impliment load image"] }
      else st1
  | TryOutcome.exn => { st with statusMessage := some "Cancelled Load" }

/-- The widget callbacks of GUI/main.py that contain an exception handler:
`init_widgets` connects exactly `choose_image1` and `choose_image2`, and the
source files of the program contain no other `try`/`except` block. -/
def gui_exception_handling_callbacks : List (TryOutcome → GuiState → GuiState) :=
  [choose_image1, choose_image2]

/-- A training sample: a dict with tensor values, modelled as an association
list from keys (the source uses `"real"` and `"sim"`) to the list of
per-item rows of the batch, so that `torch.cat(-, axis=0)` is list append
and the batch size is the list length. -/
abbrev Sample := List (String × List T)

/-- One pass of the inner loop of `concat_samples`: for every key of the
accumulated sample, append `s[key]` to it (`sample[key] =
torch.cat((sample[key], samples[i][key]), axis=0)`).  A key missing from `s`
is a Python `KeyError`, modelled as `none`. -/
def concat_add : Sample → Sample → Option Sample
  | [], _ => some []
  | p :: ps, s =>
      match s.lookup p.1, concat_add ps s with
      | some v, some rest => some ((p.1, p.2 ++ v) :: rest)
      | _, _ => none

/-- The loop of `concat_samples` over `samples[1:]`, folding `concat_add`. -/
def concat_go (acc : Sample) : List Sample → Option Sample
  | [] => some acc
  | s :: ss =>
      match concat_add acc s with
      | some acc2 => concat_go acc2 ss
      | none => none

/-- `concat_samples(samples)` of train_multi_task.py: start from
`samples[0]` and concatenate every later sample's value onto each of its
keys.  An empty argument list is a Python `IndexError`, modelled as
`none`. -/
def concat_samples : List Sample → Option Sample
  | [] => none
  | s0 :: rest => concat_go s0 rest

/-- `zip(*self.torch_dataloaders_train.values())` of train_multi_task.py:
draw the i-th batch of every per-task loader in lockstep, stopping at the
shortest loader; step i lists the loaders' i-th batches in loader order. -/
def lockstep (loaders : List (List Sample)) : List (List Sample) :=
  (List.range ((loaders.map List.length).min?.getD 0)).map
    (fun i => loaders.filterMap (fun l => l[i]?))

/-- `self.step_lr = [0.95, 0.98, 0.99, 0.999, 1]`: the ordered SSIM
thresholds of the learning-rate staging (identical literal in both
trainers). -/
def step_lr : List ℚ := [95/100, 98/100, 99/100, 999/1000, 1]

/-- `self.step_epochs = [50, 100, self.epochs]`: the epoch thresholds of the
learning-rate staging (identical literal in both trainers). -/
def step_epochs (epochs : ℕ) : List ℕ := [50, 100, epochs]

/-- `trainer.check_to_lower_learning_rate` of train_multi_task.py (the same
statements appear inline in the epoch loop of train_unet.py):
if `self.ssim > self.step_lr[self.step_num]`, step the scheduler (one
multiplicative decay) and advance `self.step_num`; then, independently, if
`self.epoch > self.step_epochs[min(len(self.step_epochs)-1, self.step_num)]`
step the scheduler again without touching `self.step_num`.  Returns the new
`step_num` and the number of scheduler decay steps applied; an out-of-range
list index is a Python `IndexError`, modelled as `none`. -/
def check_to_lower_learning_rate (sl : List ℚ) (se : List ℕ)
    (ssim : ℚ) (epoch stepNum : ℕ) : Option (ℕ × ℕ) :=
  match sl.get? stepNum with
  | none => none
  | some thr =>
      let first := if thr < ssim then (stepNum + 1, 1) else (stepNum, 0)
      match se.get? (min (se.length - 1) first.1) with
      | none => none
      | some ethr =>
          some (first.1, first.2 + (if ethr < epoch then 1 else 0))

/-- The observable events of a training run: each training step and each
validation batch, tagged with the mode the network was in when it was
processed. -/
inductive Ev where
  | trainStep (m : Mode)
  | valBatch (m : Mode)
deriving DecidableEq, Repr

/-- State of the multi-task trainer's epoch loop (train_multi_task.py):
`self.ssim` (last stored validation SSIM, `0` from `setup`),
`self._last_ssim` (set by `val_all`), `self.step_num`, the network mode, the
epochs whose body has run, the epochs at which `maybe_save_model` overwrote
the `best_generator` checkpoint, the number of scheduler decay steps applied
so far, and the event trace. -/
structure MTState where
  ssim : ℚ
  lastSsim : ℚ
  stepNum : ℕ
  mode : Mode
  epochsRun : List ℕ
  bestSaves : List ℕ
  schedSteps : ℕ
  events : List Ev
deriving DecidableEq, Repr

/-- The state after `trainer.setup()` of train_multi_task.py:
`self.ssim = 0`, `self.step_num = 0`, `self.model.train()`. -/
def mt_setup : MTState :=
  { ssim := 0, lastSsim := 0, stepNum := 0, mode := Mode.train,
    epochsRun := [], bestSaves := [], schedSteps := 0, events := [] }

/-- The state effect of `trainer.val_all` of train_multi_task.py within the
epoch loop: `self._last_ssim = self.ssim`, `self.model.eval()`, process the
validation batches (each tagged with the mode in force, `nValB` of them),
`self.model.train()`, and store the freshly averaged SSIM — abstracted as
`vs e`, the run's validation-SSIM value at epoch `e` (the network changes
every epoch, so the average is a function of the epoch; its arithmetic is
the `val_all` definition above). -/
def mt_val_all (vs : ℕ → ℚ) (nValB : ℕ) (e : ℕ) (st : MTState) : MTState :=
  let st1 := { st with lastSsim := st.ssim, mode := Mode.eval }
  let st2 := { st1 with
    events := st1.events ++ List.replicate nValB (Ev.valBatch st1.mode) }
  { st2 with mode := Mode.train, ssim := vs e }

/-- `trainer.maybe_save_model` of train_multi_task.py: overwrite the
`best_generator` checkpoint exactly when `self._last_ssim < self.ssim`. -/
def mt_maybe_save_model (e : ℕ) (st : MTState) : MTState :=
  if st.lastSsim < st.ssim then { st with bestSaves := st.bestSaves ++ [e] }
  else st

/-- One iteration of the epoch loop of `trainer.start` of
train_multi_task.py: run `nTrain` training steps (each with the network in
the current mode), then on the validation cadence
(`self.epoch % self.val_every == 0`) run `val_all` followed by
`maybe_save_model`, then `check_to_lower_learning_rate`. -/
def mt_run_epoch (vs : ℕ → ℚ) (nTrain nValB valEvery epochs : ℕ)
    (e : ℕ) (st : MTState) : Option MTState :=
  let st1 := { st with
    epochsRun := st.epochsRun ++ [e],
    events := st.events ++ List.replicate nTrain (Ev.trainStep st.mode) }
  let st2 := if e % valEvery = 0
    then mt_maybe_save_model e (mt_val_all vs nValB e st1) else st1
  match check_to_lower_learning_rate step_lr (step_epochs epochs)
      st2.ssim e st2.stepNum with
  | none => none
  | some nd => some { st2 with stepNum := nd.1, schedSteps := st2.schedSteps + nd.2 }

/-- The epoch loop of `trainer.start` of train_multi_task.py from epoch `e`
with `r` epochs of the budget remaining: after each epoch body, break out of
the loop when `self.ssim > 0.9999`. -/
def mt_run_from (vs : ℕ → ℚ) (nTrain nValB valEvery epochs : ℕ) :
    ℕ → ℕ → MTState → Option MTState
  | _, 0, st => some st
  | e, r + 1, st =>
      match mt_run_epoch vs nTrain nValB valEvery epochs e st with
      | none => none
      | some st2 =>
          if 9999/10000 < st2.ssim then some st2
          else mt_run_from vs nTrain nValB valEvery epochs (e + 1) r st2

/-- `trainer.start()` of train_multi_task.py as invoked by the script:
`setup` then the epoch loop over `range(self.epochs)` with the default
validation cadence `val_every=1`. -/
def mt_start (vs : ℕ → ℚ) (nTrain nValB epochs : ℕ) : Option MTState :=
  mt_run_from vs nTrain nValB 1 epochs 0 epochs mt_setup

/-- State of the supervised trainer's epoch loop (train_unet.py):
`self.ssim` (set by the first validation, which runs at epoch 0 before any
read), the local `step_num`, the network mode, the epochs whose body has
run, the `epoch+1` values of the periodic `save_model` calls, the scheduler
decay-step count, the event trace, and the argument of the final
`save_model` after the loop (if it was reached). -/
structure UState where
  ssim : ℚ
  stepNum : ℕ
  mode : Mode
  epochsRun : List ℕ
  periodicSaves : List ℕ
  schedSteps : ℕ
  events : List Ev
  finalSave : Option ℕ
deriving DecidableEq, Repr

/-- The state after `trainer.setup()` and the loop-local initialisations of
`trainer.start` of train_unet.py (`step_num = 0`, `self.model.train()`;
`self.ssim` is first assigned by the epoch-0 validation before any read, so
its initial value below is never consumed). -/
def unet_setup : UState :=
  { ssim := 0, stepNum := 0, mode := Mode.train, epochsRun := [],
    periodicSaves := [], schedSteps := 0, events := [], finalSave := none }

/-- The state effect of `trainer.val_all` of train_unet.py: `model.eval()`,
process the validation batches, `model.train()`, store the averaged SSIM
(abstracted as `vs e` exactly as for the multi-task trainer). -/
def unet_val_all (vs : ℕ → ℚ) (nValB : ℕ) (e : ℕ) (st : UState) : UState :=
  let st1 := { st with mode := Mode.eval }
  let st2 := { st1 with
    events := st1.events ++ List.replicate nValB (Ev.valBatch st1.mode) }
  { st2 with mode := Mode.train, ssim := vs e }

/-- One iteration of the epoch loop of `trainer.start` of train_unet.py:
run the training steps, validate on the cadence `epoch % val_every == 0`,
save `model` as checkpoint `epoch+1` on the cadence
`epoch % save_model_every == 0`, then the inline learning-rate staging. -/
def unet_run_epoch (vs : ℕ → ℚ) (nTrain nValB valEvery saveEvery epochs : ℕ)
    (e : ℕ) (st : UState) : Option UState :=
  let st1 := { st with
    epochsRun := st.epochsRun ++ [e],
    events := st.events ++ List.replicate nTrain (Ev.trainStep st.mode) }
  let st2 := if e % valEvery = 0 then unet_val_all vs nValB e st1 else st1
  let st3 := if e % saveEvery = 0
    then { st2 with periodicSaves := st2.periodicSaves ++ [e + 1] } else st2
  match check_to_lower_learning_rate step_lr (step_epochs epochs)
      st3.ssim e st3.stepNum with
  | none => none
  | some nd => some { st3 with stepNum := nd.1, schedSteps := st3.schedSteps + nd.2 }

/-- The epoch loop of `trainer.start` of train_unet.py from epoch `e` with
`r` budget epochs remaining; `le` is the value the Python loop variable
`epoch` currently holds (`none` when the loop body has never run; reading it
then is a `NameError`).  Breaks when `self.ssim > 0.9999`. -/
def unet_run_from (vs : ℕ → ℚ) (nTrain nValB valEvery saveEvery epochs : ℕ) :
    ℕ → ℕ → Option ℕ → UState → Option (Option ℕ × UState)
  | _, 0, le, st => some (le, st)
  | e, r + 1, _, st =>
      match unet_run_epoch vs nTrain nValB valEvery saveEvery epochs e st with
      | none => none
      | some st2 =>
          if 9999/10000 < st2.ssim then some (some e, st2)
          else unet_run_from vs nTrain nValB valEvery saveEvery epochs
            (e + 1) r (some e) st2

/-- `trainer.start()` of train_unet.py as invoked by the script (defaults
`save_model_every=10`, `val_every=1`): the epoch loop over
`range(self.epochs)`, then the final `self.saver.save_model(self.model,
epoch+1)`, which raises `NameError` when the loop body never ran (so no
final checkpoint is written), modelled as `none`. -/
def unet_start (vs : ℕ → ℚ) (nTrain nValB epochs : ℕ) : Option UState :=
  match unet_run_from vs nTrain nValB 1 10 epochs 0 epochs none unet_setup with
  | none => none
  | some (none, _) => none
  | some (some e, st) => some { st with finalSave := some (e + 1) }

/-- Whether a run event respects the mode discipline: training steps are
processed in training mode, validation batches in evaluation mode. -/
def ev_ok : Ev → Bool
  | Ev.trainStep Mode.train => true
  | Ev.valBatch Mode.eval => true
  | _ => false

/-- The SSIM recorded from the validation immediately preceding epoch `e`
when every epoch validates (`val_every = 1`): `0` (the `setup` value) before
the first validation, otherwise the previous epoch's validation average. -/
def prevVs (vs : ℕ → ℚ) (e : ℕ) : ℚ := if e = 0 then 0 else vs (e - 1)

/-! ### Helper lemmas -/

lemma check_char (sl : List ℚ) (se : List ℕ) (s : ℚ) (epoch n : ℕ)
    (h1 : n < sl.length) (h2 : 0 < se.length) :
    check_to_lower_learning_rate sl se s epoch n =
      some ((if sl[n] < s then n + 1 else n),
        (if sl[n] < s then 1 else 0) +
          (if se.getD (min (se.length - 1)
              (if sl[n] < s then n + 1 else n)) 0 < epoch
            then 1 else 0)) := by
  have hm : ∀ k : ℕ, min (se.length - 1) k < se.length :=
    fun k => Nat.lt_of_le_of_lt (Nat.min_le_left _ _) (Nat.sub_lt h2 Nat.one_pos)
  by_cases hc : sl[n] < s <;>
    simp [check_to_lower_learning_rate, List.getElem?_eq_getElem h1, hc,
      List.getElem?_eq_getElem (hm _), List.getD_eq_getElem?_getD]

lemma step_lr_length : step_lr.length = 5 := by simp [step_lr]

lemma check_to_lower_some (E : ℕ) (s : ℚ) (epoch n : ℕ)
    (hn : n < 5) (hs : s ≤ 1) :
    ∃ nd : ℕ × ℕ,
      check_to_lower_learning_rate step_lr (step_epochs E) s epoch n = some nd
        ∧ nd.1 < 5 := by
  have h1 : n < step_lr.length := by simpa [step_lr_length] using hn
  have h2 : 0 < (step_epochs E).length := by simp [step_epochs]
  refine ⟨_, check_char step_lr (step_epochs E) s epoch n h1 h2, ?_⟩
  by_cases hc : step_lr[n] < s
  · simp only [hc, if_pos]
    rcases Nat.lt_or_ge n 4 with h4 | h4
    · omega
    · exfalso
      have hn4 : n = 4 := by omega
      subst hn4
      have hv : step_lr[4] = 1 := rfl
      rw [hv] at hc
      linarith
  · simpa [hc] using hn

/-- Loop invariant of the multi-task epoch loop with `val_every = 1`, at the
point where epoch `e` is about to run: the staging index is in range, the
network is in training mode, `self.ssim` holds the immediately preceding
validation's average, the executed epochs are `0..e-1`, the best-checkpoint
saves are exactly the validations that improved on their immediate
predecessor, and every traced event respected the mode discipline. -/
def mtInv (vs : ℕ → ℚ) (e : ℕ) (st : MTState) : Prop :=
  st.stepNum < 5 ∧ st.mode = Mode.train ∧ st.ssim = prevVs vs e ∧
    st.epochsRun = List.range e ∧
    (∀ x : ℕ, x ∈ st.bestSaves ↔ x < e ∧ prevVs vs x < vs x) ∧
    (∀ ev ∈ st.events, ev_ok ev = true)

lemma mt_run_epoch_spec (vs : ℕ → ℚ) (nT nV E : ℕ) (hs : ∀ x, vs x ≤ 1)
    (e : ℕ) (st : MTState) (h : mtInv vs e st) :
    ∃ st2, mt_run_epoch vs nT nV 1 E e st = some st2 ∧ mtInv vs (e + 1) st2
      ∧ st2.ssim = vs e := by
  obtain ⟨h1, h2, h3, h4, h5, h6⟩ := h
  obtain ⟨nd, hnd, hnd1⟩ := check_to_lower_some E (vs e) e st.stepNum h1 (hs e)
  have hevents : ∀ ev ∈ (st.events ++ List.replicate nT (Ev.trainStep st.mode))
      ++ List.replicate nV (Ev.valBatch Mode.eval), ev_ok ev = true := by
    intro ev hev
    rcases List.mem_append.mp hev with hev | hev
    · rcases List.mem_append.mp hev with hev | hev
      · exact h6 ev hev
      · rw [List.eq_of_mem_replicate hev, h2]; rfl
    · rw [List.eq_of_mem_replicate hev]; rfl
  have hrange : st.epochsRun ++ [e] = List.range (e + 1) := by
    rw [h4, List.range_succ]
  by_cases hsave : st.ssim < vs e
  · refine ⟨⟨vs e, st.ssim, nd.1, Mode.train, st.epochsRun ++ [e],
      st.bestSaves ++ [e], st.schedSteps + nd.2,
      (st.events ++ List.replicate nT (Ev.trainStep st.mode))
        ++ List.replicate nV (Ev.valBatch Mode.eval)⟩, ?_, ?_, rfl⟩
    · simp [mt_run_epoch, mt_val_all, mt_maybe_save_model, Nat.mod_one,
        hsave, hnd]
    · refine ⟨hnd1, rfl, ?_, hrange, ?_, hevents⟩
      · simp [prevVs]
      · intro x
        constructor
        · intro hx
          rcases List.mem_append.mp hx with hx | hx
          · rcases (h5 x).mp hx with ⟨hlt, hP⟩
            exact ⟨Nat.lt_succ_of_lt hlt, hP⟩
          · rw [List.mem_singleton.mp hx]
            exact ⟨Nat.lt_succ_self e, h3 ▸ hsave⟩
        · rintro ⟨hlt, hP⟩
          rcases Nat.lt_succ_iff_lt_or_eq.mp hlt with hlt | rfl
          · exact List.mem_append.mpr (Or.inl ((h5 x).mpr ⟨hlt, hP⟩))
          · exact List.mem_append.mpr (Or.inr (List.mem_singleton.mpr rfl))
  · refine ⟨⟨vs e, st.ssim, nd.1, Mode.train, st.epochsRun ++ [e],
      st.bestSaves, st.schedSteps + nd.2,
      (st.events ++ List.replicate nT (Ev.trainStep st.mode))
        ++ List.replicate nV (Ev.valBatch Mode.eval)⟩, ?_, ?_, rfl⟩
    · simp [mt_run_epoch, mt_val_all, mt_maybe_save_model, Nat.mod_one,
        hsave, hnd]
    · refine ⟨hnd1, rfl, ?_, hrange, ?_, hevents⟩
      · simp [prevVs]
      · intro x
        rw [h5 x]
        constructor
        · rintro ⟨hlt, hP⟩
          exact ⟨Nat.lt_succ_of_lt hlt, hP⟩
        · rintro ⟨hlt, hP⟩
          rcases Nat.lt_succ_iff_lt_or_eq.mp hlt with hlt | rfl
          · exact ⟨hlt, hP⟩
          · exact absurd (h3 ▸ hP) hsave

lemma mtInv_setup (vs : ℕ → ℚ) : mtInv vs 0 mt_setup := by
  refine ⟨by simp [mt_setup], rfl, by simp [prevVs, mt_setup],
    by simp [mt_setup], ?_, by simp [mt_setup]⟩
  intro x
  simp [mt_setup]

lemma mt_run_from_inv (vs : ℕ → ℚ) (nT nV E : ℕ) (hs : ∀ x, vs x ≤ 1) :
    ∀ r e st, mtInv vs e st →
      ∃ fin m, mt_run_from vs nT nV 1 E e r st = some fin ∧ mtInv vs m fin := by
  intro r
  induction r with
  | zero => exact fun e st h => ⟨st, e, rfl, h⟩
  | succ n ih =>
      intro e st h
      obtain ⟨st2, hrun, hinv, hssim⟩ := mt_run_epoch_spec vs nT nV E hs e st h
      by_cases hb : (9999/10000 : ℚ) < st2.ssim
      · exact ⟨st2, e + 1, by simp [mt_run_from, hrun, hb], hinv⟩
      · obtain ⟨fin, m, hrf, hfin⟩ := ih (e + 1) st2 hinv
        exact ⟨fin, m, by simp [mt_run_from, hrun, hb, hrf], hfin⟩

lemma mt_run_from_break (vs : ℕ → ℚ) (nT nV E : ℕ) (hs : ∀ x, vs x ≤ 1)
    (ef : ℕ) (hlow : ∀ x, x < ef → vs x ≤ 9999/10000)
    (hhi : 9999/10000 < vs ef) :
    ∀ r e st, mtInv vs e st → e ≤ ef → ef < e + r →
      ∃ fin, mt_run_from vs nT nV 1 E e r st = some fin ∧
        fin.epochsRun = List.range (ef + 1) := by
  intro r
  induction r with
  | zero => intro e st _ he hef; omega
  | succ n ih =>
      intro e st h he hef
      obtain ⟨st2, hrun, hinv, hssim⟩ := mt_run_epoch_spec vs nT nV E hs e st h
      rcases eq_or_lt_of_le he with rfl | hlt
      · have hb : (9999/10000 : ℚ) < st2.ssim := by rw [hssim]; exact hhi
        exact ⟨st2, by simp [mt_run_from, hrun, hb], hinv.2.2.2.1⟩
      · have hb : ¬ (9999/10000 : ℚ) < st2.ssim := by
          rw [hssim]; exact not_lt.mpr (hlow e hlt)
        obtain ⟨fin, hrf, hrange⟩ := ih (e + 1) st2 hinv (by omega) (by omega)
        exact ⟨fin, by simp [mt_run_from, hrun, hb, hrf], hrange⟩

/-- Loop invariant of the supervised trainer's epoch loop with
`val_every = 1`, at the point where epoch `e` is about to run. -/
def uInv (vs : ℕ → ℚ) (e : ℕ) (st : UState) : Prop :=
  st.stepNum < 5 ∧ st.mode = Mode.train ∧ st.ssim = prevVs vs e ∧
    st.epochsRun = List.range e ∧ (∀ ev ∈ st.events, ev_ok ev = true)

lemma uInv_setup (vs : ℕ → ℚ) : uInv vs 0 unet_setup := by
  exact ⟨by simp [unet_setup], rfl, by simp [prevVs, unet_setup],
    by simp [unet_setup], by simp [unet_setup]⟩

lemma unet_run_epoch_spec (vs : ℕ → ℚ) (nT nV E : ℕ) (hs : ∀ x, vs x ≤ 1)
    (e : ℕ) (st : UState) (h : uInv vs e st) :
    ∃ st2, unet_run_epoch vs nT nV 1 10 E e st = some st2 ∧ uInv vs (e + 1) st2
      ∧ st2.ssim = vs e := by
  obtain ⟨h1, h2, h3, h4, h5⟩ := h
  obtain ⟨nd, hnd, hnd1⟩ := check_to_lower_some E (vs e) e st.stepNum h1 (hs e)
  have hevents : ∀ ev ∈ (st.events ++ List.replicate nT (Ev.trainStep st.mode))
      ++ List.replicate nV (Ev.valBatch Mode.eval), ev_ok ev = true := by
    intro ev hev
    rcases List.mem_append.mp hev with hev | hev
    · rcases List.mem_append.mp hev with hev | hev
      · exact h5 ev hev
      · rw [List.eq_of_mem_replicate hev, h2]; rfl
    · rw [List.eq_of_mem_replicate hev]; rfl
  have hrange : st.epochsRun ++ [e] = List.range (e + 1) := by
    rw [h4, List.range_succ]
  have hprev : vs e = prevVs vs (e + 1) := by simp [prevVs]
  by_cases hp : e % 10 = 0
  · refine ⟨⟨vs e, nd.1, Mode.train, st.epochsRun ++ [e],
      st.periodicSaves ++ [e + 1], st.schedSteps + nd.2,
      (st.events ++ List.replicate nT (Ev.trainStep st.mode))
        ++ List.replicate nV (Ev.valBatch Mode.eval), st.finalSave⟩, ?_,
      ⟨hnd1, rfl, hprev.symm, hrange, hevents⟩, rfl⟩
    simp [unet_run_epoch, unet_val_all, Nat.mod_one, hp, hnd]
  · refine ⟨⟨vs e, nd.1, Mode.train, st.epochsRun ++ [e],
      st.periodicSaves, st.schedSteps + nd.2,
      (st.events ++ List.replicate nT (Ev.trainStep st.mode))
        ++ List.replicate nV (Ev.valBatch Mode.eval), st.finalSave⟩, ?_,
      ⟨hnd1, rfl, hprev.symm, hrange, hevents⟩, rfl⟩
    simp [unet_run_epoch, unet_val_all, Nat.mod_one, hp, hnd]

lemma unet_run_from_inv (vs : ℕ → ℚ) (nT nV E : ℕ) (hs : ∀ x, vs x ≤ 1) :
    ∀ r e st, uInv vs e st →
      ∃ le fin m,
        unet_run_from vs nT nV 1 10 E e r
            (if e = 0 then none else some (e - 1)) st = some (le, fin) ∧
          uInv vs m fin ∧ e ≤ m ∧ (0 < r → e < m) ∧
          le = (if m = 0 then none else some (m - 1)) := by
  intro r
  induction r with
  | zero =>
      intro e st h
      exact ⟨_, st, e, rfl, h, le_refl e, by omega, rfl⟩
  | succ n ih =>
      intro e st h
      obtain ⟨st2, hrun, hinv, hssim⟩ := unet_run_epoch_spec vs nT nV E hs e st h
      by_cases hb : (9999/10000 : ℚ) < st2.ssim
      · refine ⟨some e, st2, e + 1, ?_, hinv, by omega, fun _ => by omega, by simp⟩
        simp [unet_run_from, hrun, hb]
      · obtain ⟨le, fin, m, hrf, hfin, hm1, _, hle⟩ := ih (e + 1) st2 hinv
        refine ⟨le, fin, m, ?_, hfin, by omega, fun _ => by omega, hle⟩
        have hif : (if e + 1 = 0 then none else some (e + 1 - 1)) = some e := by simp
        rw [hif] at hrf
        simp [unet_run_from, hrun, hb, hrf]

lemma unet_run_from_break (vs : ℕ → ℚ) (nT nV E : ℕ) (hs : ∀ x, vs x ≤ 1)
    (ef : ℕ) (hlow : ∀ x, x < ef → vs x ≤ 9999/10000)
    (hhi : 9999/10000 < vs ef) :
    ∀ r e st, uInv vs e st → e ≤ ef → ef < e + r →
      ∃ fin, unet_run_from vs nT nV 1 10 E e r
          (if e = 0 then none else some (e - 1)) st = some (some ef, fin) ∧
        fin.epochsRun = List.range (ef + 1) := by
  intro r
  induction r with
  | zero => intro e st _ he hef; omega
  | succ n ih =>
      intro e st h he hef
      obtain ⟨st2, hrun, hinv, hssim⟩ := unet_run_epoch_spec vs nT nV E hs e st h
      rcases eq_or_lt_of_le he with rfl | hlt
      · have hb : (9999/10000 : ℚ) < st2.ssim := by rw [hssim]; exact hhi
        exact ⟨st2, by simp [unet_run_from, hrun, hb], hinv.2.2.2.1⟩
      · have hb : ¬ (9999/10000 : ℚ) < st2.ssim := by
          rw [hssim]; exact not_lt.mpr (hlow e hlt)
        obtain ⟨fin, hrf, hrange⟩ := ih (e + 1) st2 hinv (by omega) (by omega)
        have hif : (if e + 1 = 0 then none else some (e + 1 - 1)) = some e := by simp
        rw [hif] at hrf
        exact ⟨fin, by simp [unet_run_from, hrun, hb, hrf], hrange⟩

lemma nat_min?_le {l : List ℕ} {n : ℕ} (h : l.min? = some n) : ∀ b ∈ l, n ≤ b :=
  ((List.min?_eq_some_iff (fun x => le_refl x) (fun x y => min_choice x y)
      (fun _ _ _ => le_min_iff)).mp h).2

lemma filterMap_all_some {α β : Type} (f : α → Option β) :
    ∀ l : List α, (∀ x ∈ l, (f x).isSome) →
      (l.filterMap f).length = l.length ∧
        ∀ j : ℕ, (l.filterMap f)[j]? = l[j]?.bind f := by
  intro l
  induction l with
  | nil => exact fun _ => ⟨rfl, fun j => by cases j <;> rfl⟩
  | cons a t ih =>
      intro h
      obtain ⟨b, hb⟩ := Option.isSome_iff_exists.mp (h a (List.mem_cons_self a t))
      obtain ⟨hl, hg⟩ := ih (fun x hx => h x (List.mem_cons_of_mem a hx))
      constructor
      · simp [List.filterMap_cons, hb, hl]
      · intro j
        cases j with
        | zero => simp [List.filterMap_cons, hb]
        | succ m => simp [List.filterMap_cons, hb, hg m]

lemma concat_add_eq (s : Sample) :
    ∀ acc : Sample, (∀ p ∈ acc, (s.lookup p.1).isSome) →
      concat_add acc s
        = some (acc.map (fun p => (p.1, p.2 ++ (s.lookup p.1).getD []))) := by
  intro acc
  induction acc with
  | nil => exact fun _ => rfl
  | cons p ps ih =>
      intro h
      obtain ⟨v, hv⟩ :=
        Option.isSome_iff_exists.mp (h p (List.mem_cons_self p ps))
      rw [show concat_add (p :: ps) s
          = (match s.lookup p.1, concat_add ps s with
            | some v, some rest => some ((p.1, p.2 ++ v) :: rest)
            | _, _ => none) from rfl,
        hv, ih (fun q hq => h q (List.mem_cons_of_mem p hq))]
      simp [hv]

lemma concat_go_eq :
    ∀ (rest : List Sample) (acc : Sample),
      (∀ s ∈ rest, ∀ p ∈ acc, (s.lookup p.1).isSome) →
      concat_go acc rest = some (acc.map (fun p =>
        (p.1, p.2 ++ (rest.map (fun s => (s.lookup p.1).getD [])).flatten))) := by
  intro rest
  induction rest with
  | nil =>
      intro acc _
      simp [concat_go]
  | cons s ss ih =>
      intro acc h
      have hadd := concat_add_eq s acc (h s (List.mem_cons_self s ss))
      have hih := ih (acc.map (fun p => (p.1, p.2 ++ (s.lookup p.1).getD [])))
        (by
          intro s2 hs2 p hp
          obtain ⟨q, hq, rfl⟩ := List.mem_map.mp hp
          exact h s2 (List.mem_cons_of_mem s hs2) q hq)
      rw [show concat_go acc (s :: ss)
          = (match concat_add acc s with
            | some acc2 => concat_go acc2 ss
            | none => none) from rfl,
        hadd]
      show concat_go (acc.map (fun p => (p.1, p.2 ++ (s.lookup p.1).getD []))) ss
        = _
      rw [hih, List.map_map]
      refine congrArg some (List.map_congr_left ?_)
      intro q _
      simp [Function.comp, List.flatten_cons, List.append_assoc]

/-! ### Claim theorems -/

/-- C1: in the multi-task trainer (which validates every epoch), the
`best_generator` checkpoint is overwritten at an epoch exactly when that
epoch's validation SSIM strictly exceeds the SSIM recorded at the
immediately preceding validation (`prevVs`: the previous epoch's average,
`0` before the first validation) — not the historical maximum — and no
best-checkpoint save happens otherwise. -/
theorem best_checkpoint_iff_improves_on_previous_validation
    (vs : ℕ → ℚ) (nT nV E : ℕ) (hs : ∀ e, vs e ≤ 1) :
    ∃ fin, mt_start vs nT nV E = some fin ∧
      ∀ e : ℕ, e ∈ fin.bestSaves ↔ e ∈ fin.epochsRun ∧ prevVs vs e < vs e := by
  obtain ⟨fin, m, hrf, hinv⟩ :=
    mt_run_from_inv vs nT nV E hs E 0 mt_setup (mtInv_setup vs)
  obtain ⟨_, _, _, h4, h5, _⟩ := hinv
  refine ⟨fin, hrf, fun e => ?_⟩
  rw [h5 e, h4, List.mem_range]

/-- Witness for C1 at a concrete run: validation SSIMs 8/10, 3/10, 5/10 —
the epoch-2 save happens because 5/10 beats its immediate predecessor 3/10,
although it is below the historical maximum 8/10. -/
theorem best_checkpoint_iff_improves_on_previous_validation_witness :
    ∃ fin, mt_start
        (fun e => if e = 0 then (8:ℚ)/10 else if e = 1 then 3/10 else 5/10)
        1 1 3 = some fin ∧
      ∀ e : ℕ, e ∈ fin.bestSaves ↔ e ∈ fin.epochsRun ∧
        prevVs (fun e => if e = 0 then (8:ℚ)/10 else if e = 1 then 3/10 else 5/10) e
          < (fun e => if e = 0 then (8:ℚ)/10 else if e = 1 then 3/10 else 5/10) e :=
  best_checkpoint_iff_improves_on_previous_validation
    (fun e => if e = 0 then (8:ℚ)/10 else if e = 1 then 3/10 else 5/10) 1 1 3
    (by
      intro e
      by_cases h : e = 0
      · norm_num [h]
      · by_cases h1 : e = 1 <;> norm_num [h, h1])

/-- C3: one pass of the learning-rate staging of either trainer: exactly
when the validation SSIM exceeds the SSIM threshold at the current index,
one decay step is applied and the index advances by one; independently,
when the epoch count exceeds the epoch-threshold entry selected by that
same index (clamped to the last entry), one additional decay step is
applied without advancing the index. -/
theorem learning_rate_staging_char (E : ℕ) (ssim : ℚ) (epoch n : ℕ)
    (h1 : n < step_lr.length) :
    ∃ n2 d,
      check_to_lower_learning_rate step_lr (step_epochs E) ssim epoch n
        = some (n2, d) ∧
      n2 = (if step_lr[n] < ssim then n + 1 else n) ∧
      d = (if step_lr[n] < ssim then 1 else 0) +
        (if (step_epochs E).getD (min ((step_epochs E).length - 1) n2) 0 < epoch
          then 1 else 0) :=
  ⟨_, _, check_char step_lr (step_epochs E) ssim epoch n h1 (by simp [step_epochs]),
    rfl, rfl⟩

/-- Witness for C3 at SSIM 96/100, epoch 60, index 0: the SSIM threshold
95/100 is exceeded so the index advances to 1 and one decay is applied; the
epoch check then reads the epoch threshold at the advanced index (100), so
no second decay happens at epoch 60. -/
theorem learning_rate_staging_char_witness :
    ∃ n2 d,
      check_to_lower_learning_rate step_lr (step_epochs 200) (96/100) 60 0
        = some (n2, d) ∧
      n2 = (if step_lr[0] < (96:ℚ)/100 then 0 + 1 else 0) ∧
      d = (if step_lr[0] < (96:ℚ)/100 then 1 else 0) +
        (if (step_epochs 200).getD (min ((step_epochs 200).length - 1) n2) 0 < 60
          then 1 else 0) :=
  learning_rate_staging_char 200 (96/100) 60 0 (by norm_num [step_lr])

/-- C5: with a discriminator present, the generator's training loss is
`0.01` times the adversarial loss (discriminator output on the generated
image conditioned on the real image, scored against the all-ones real
label) plus `1` times the pixel-wise L1 loss between the generated and
target simulated images. -/
theorem gan_generator_loss_weighting (model : T → T) (dis : T → T → T)
    (b o : ℕ) (im_real im_sim : T) :
    (train_step model (some dis) b o im_real im_sim).genLoss
      = 1/100 * mseLoss (dis (model im_real) im_real)
          (List.replicate (b * o * o) 1)
        + 1 * l1Loss (model im_real) im_sim := by
  simp [train_step, gan_label_real, mul_one, one_mul]

/-- C6: with a discriminator present, the discriminator is updated after
the generator in the same step, with loss `0.5` times the sum of the
real-pair loss (true simulated image against the all-ones real label) and
the fake-pair loss (the detached generator output against the all-zeros
fake label), both conditioned on the same real camera image. -/
theorem gan_discriminator_loss_weighting (model : T → T) (dis : T → T → T)
    (b o : ℕ) (im_real im_sim : T) :
    (train_step model (some dis) b o im_real im_sim).discrimLoss
      = some (1/2 * (mseLoss (dis im_sim im_real) (List.replicate (b * o * o) 1)
          + mseLoss (dis (model im_real) im_real) (List.replicate (b * o * o) 0)))
    ∧ (train_step model (some dis) b o im_real im_sim).phases
      = [Phase.generatorUpdate, Phase.discriminatorUpdate] :=
  ⟨by simp [train_step, gan_label_real, gan_label_fake, mul_one], rfl⟩

/-- C2 (code bug in `get_mse` of test_gan.py): both trainers' per-batch
validation MSE is the mean of squared differences, but `get_mse` — whose
name and docstring promise MSE — returns the mean of the *signed*
differences: for prediction `[2]` against target `[0]` it returns `2`,
while the mean squared difference is `4`. -/
theorem get_mse_returns_signed_mean :
    (∀ pred sim : T, val_batch_mse pred sim
      = tensor_mean (List.zipWith (fun p s => (p - s)^2) pred sim)) ∧
    (get_mse (fun _ => [2]) (fun x => x) [0] [0]).1 = 2 ∧
    val_batch_mse [2] [0] = 4 ∧
    ((2 : ℚ) ≠ 4) := by
  refine ⟨?_,
    by norm_num [get_mse, tensor_mean, tensor_sub],
    by norm_num [val_batch_mse, tensor_mean, tensor_square, tensor_sub],
    by norm_num⟩
  intro pred sim
  simp [val_batch_mse, tensor_square, tensor_sub, tensor_mean,
    List.map_zipWith, pow_two]

/-- C8: in both trainers, once the validation at epoch `ef` (the first one
past the cutoff) yields averaged SSIM above 0.9999, the epoch loop exits at
the end of that epoch: the executed epochs are exactly `0..ef`, so no
further epoch of the budget `E` is begun. -/
theorem ssim_cutoff_stops_training
    (vs : ℕ → ℚ) (nT nV E ef : ℕ) (hs : ∀ e, vs e ≤ 1)
    (hlow : ∀ x, x < ef → vs x ≤ 9999/10000) (hhi : 9999/10000 < vs ef)
    (hE : ef < E) :
    (∃ fin, mt_start vs nT nV E = some fin ∧
        fin.epochsRun = List.range (ef + 1)) ∧
    (∃ fin, unet_start vs nT nV E = some fin ∧
        fin.epochsRun = List.range (ef + 1)) := by
  constructor
  · exact mt_run_from_break vs nT nV E hs ef hlow hhi E 0 mt_setup
      (mtInv_setup vs) (by omega) (by omega)
  · obtain ⟨fin, hrf, hrange⟩ := unet_run_from_break vs nT nV E hs ef hlow hhi
      E 0 unet_setup (uInv_setup vs) (by omega) (by omega)
    have hif : (if (0:ℕ) = 0 then (none : Option ℕ) else some (0 - 1)) = none := by
      simp
    rw [hif] at hrf
    refine ⟨{ fin with finalSave := some (ef + 1) }, ?_, hrange⟩
    simp [unet_start, hrf]

/-- Witness for C8: validation SSIM 1/2 then 1; the loop of both trainers
runs exactly epochs 0 and 1 of the 4-epoch budget. -/
theorem ssim_cutoff_stops_training_witness :
    (∃ fin, mt_start (fun e => if e = 0 then (1:ℚ)/2 else 1) 1 1 4 = some fin ∧
        fin.epochsRun = List.range (1 + 1)) ∧
    (∃ fin, unet_start (fun e => if e = 0 then (1:ℚ)/2 else 1) 1 1 4 = some fin ∧
        fin.epochsRun = List.range (1 + 1)) :=
  ssim_cutoff_stops_training (fun e => if e = 0 then (1:ℚ)/2 else 1) 1 1 4 1
    (by intro e; by_cases h : e = 0 <;> norm_num [h])
    (by intro x hx; interval_cases x; norm_num)
    (by norm_num) (by norm_num)

/-- C10: the supervised trainer's `start()` requires at least one epoch:
with an epoch budget of `0` the loop body never runs and the final
`save_model(self.model, epoch+1)` reads the never-bound loop variable, so
`start()` raises and writes no final checkpoint; with a budget of at least
one, the final save succeeds — with argument `e+1` for the last executed
epoch `e` — for every validation-SSIM sequence, including runs the SSIM
early-exit breaks. -/
theorem unet_start_requires_one_epoch :
    (∀ (vs : ℕ → ℚ) (nT nV : ℕ), unet_start vs nT nV 0 = none) ∧
    (∀ (vs : ℕ → ℚ) (nT nV E : ℕ), 0 < E → (∀ e, vs e ≤ 1) →
      ∃ fin e, unet_start vs nT nV E = some fin ∧
        fin.finalSave = some (e + 1) ∧ e ∈ fin.epochsRun) := by
  constructor
  · intro vs nT nV; rfl
  · intro vs nT nV E hE hs
    obtain ⟨le, fin, m, hrf, hinv, _, hlt, hle⟩ :=
      unet_run_from_inv vs nT nV E hs E 0 unet_setup (uInv_setup vs)
    have hm : 0 < m := hlt hE
    have hle2 : le = some (m - 1) := by
      rw [hle]
      simp [Nat.pos_iff_ne_zero.mp hm]
    have hif : (if (0:ℕ) = 0 then (none : Option ℕ) else some (0 - 1)) = none := by
      simp
    rw [hif, hle2] at hrf
    refine ⟨{ fin with finalSave := some (m - 1 + 1) }, m - 1, ?_, rfl, ?_⟩
    · simp [unet_start, hrf]
    · have h4 : fin.epochsRun = List.range m := hinv.2.2.2.1
      show m - 1 ∈ fin.epochsRun
      rw [h4, List.mem_range]
      omega

/-- Witness for C10's positive half at a 3-epoch budget with constant
validation SSIM 1/2 (no early exit): the final save is performed. -/
theorem unet_start_requires_one_epoch_witness :
    unet_start (fun _ => (1:ℚ)/2) 1 1 0 = none ∧
    ∃ fin e, unet_start (fun _ => (1:ℚ)/2) 1 1 3 = some fin ∧
      fin.finalSave = some (e + 1) ∧ e ∈ fin.epochsRun :=
  ⟨unet_start_requires_one_epoch.1 (fun _ => (1:ℚ)/2) 1 1,
    unet_start_requires_one_epoch.2 (fun _ => (1:ℚ)/2) 1 1 3 (by norm_num)
      (by intro e; norm_num)⟩

/-- C7: in every `val_all` call of either trainer the network is in
evaluation mode for every validation batch, MSE and SSIM are accumulated
per batch over all validation loaders, both averages divide by the total
batch count, and the network is back in training mode when the call
returns; and over a whole run of either trainer's loop, every training
step is processed in training mode (so outside `val_all` the network is
always in training mode) and the final mode is training mode. -/
theorem val_all_eval_mode_and_batch_averages :
    (∀ (model : T → T) (ssimF : T → T → ℚ) (loaders : List (List (T × T))),
      (val_all model ssimF loaders).batchModes
          = List.replicate loaders.flatten.length Mode.eval ∧
        (val_all model ssimF loaders).modeAfter = Mode.train ∧
        (val_all model ssimF loaders).MSEs
          = loaders.flatten.map (fun b => val_batch_mse (model b.1) b.2) ∧
        (val_all model ssimF loaders).SSIMs
          = loaders.flatten.map (fun b => ssimF (model b.1) b.2) ∧
        (val_all model ssimF loaders).MSE
          = (val_all model ssimF loaders).MSEs.sum / loaders.flatten.length ∧
        (val_all model ssimF loaders).ssim
          = (val_all model ssimF loaders).SSIMs.sum / loaders.flatten.length) ∧
    (∀ (vs : ℕ → ℚ) (nT nV E : ℕ), (∀ e, vs e ≤ 1) →
      ∃ fin, mt_start vs nT nV E = some fin ∧ fin.mode = Mode.train ∧
        ∀ ev ∈ fin.events, ev_ok ev = true) ∧
    (∀ (vs : ℕ → ℚ) (nT nV E : ℕ), 0 < E → (∀ e, vs e ≤ 1) →
      ∃ fin, unet_start vs nT nV E = some fin ∧ fin.mode = Mode.train ∧
        ∀ ev ∈ fin.events, ev_ok ev = true) := by
  refine ⟨?_, ?_, ?_⟩
  · intro model ssimF loaders
    refine ⟨?_, rfl, rfl, rfl, ?_, ?_⟩
    · show loaders.flatten.map (fun _ => Mode.eval)
        = List.replicate loaders.flatten.length Mode.eval
      induction loaders.flatten with
      | nil => rfl
      | cons b t ih => simp [ih, List.replicate_succ]
    · show (loaders.flatten.map (fun b => val_batch_mse (model b.1) b.2)).sum /
          (((loaders.flatten.map (fun b => val_batch_mse (model b.1) b.2)).length : ℕ) : ℚ)
        = (loaders.flatten.map (fun b => val_batch_mse (model b.1) b.2)).sum /
          ((loaders.flatten.length : ℕ) : ℚ)
      rw [List.length_map]
    · show (loaders.flatten.map (fun b => ssimF (model b.1) b.2)).sum /
          (((loaders.flatten.map (fun b => ssimF (model b.1) b.2)).length : ℕ) : ℚ)
        = (loaders.flatten.map (fun b => ssimF (model b.1) b.2)).sum /
          ((loaders.flatten.length : ℕ) : ℚ)
      rw [List.length_map]
  · intro vs nT nV E hs
    obtain ⟨fin, m, hrf, hinv⟩ :=
      mt_run_from_inv vs nT nV E hs E 0 mt_setup (mtInv_setup vs)
    exact ⟨fin, hrf, hinv.2.1, hinv.2.2.2.2.2⟩
  · intro vs nT nV E hE hs
    obtain ⟨le, fin, m, hrf, hinv, _, hlt, hle⟩ :=
      unet_run_from_inv vs nT nV E hs E 0 unet_setup (uInv_setup vs)
    have hm : 0 < m := hlt hE
    have hle2 : le = some (m - 1) := by
      rw [hle]
      simp [Nat.pos_iff_ne_zero.mp hm]
    have hif : (if (0:ℕ) = 0 then (none : Option ℕ) else some (0 - 1)) = none := by
      simp
    rw [hif, hle2] at hrf
    refine ⟨{ fin with finalSave := some (m - 1 + 1) }, ?_, hinv.2.1,
      hinv.2.2.2.2⟩
    simp [unet_start, hrf]

/-- Witness for C7 at a concrete model, SSIM metric, loader set and run. -/
theorem val_all_eval_mode_and_batch_averages_witness :
    ((val_all (fun x => x) (fun _ _ => 1) [[([0], [1])], [([2], [2])]]).batchModes
        = List.replicate
            ([[(([0]:T), ([1]:T))], [([2], [2])]].flatten).length Mode.eval) ∧
    (∃ fin, mt_start (fun _ => (1:ℚ)/2) 1 1 2 = some fin ∧
      fin.mode = Mode.train ∧ ∀ ev ∈ fin.events, ev_ok ev = true) ∧
    (∃ fin, unet_start (fun _ => (1:ℚ)/2) 1 1 2 = some fin ∧
      fin.mode = Mode.train ∧ ∀ ev ∈ fin.events, ev_ok ev = true) :=
  ⟨(val_all_eval_mode_and_batch_averages.1 (fun x => x) (fun _ _ => 1)
      [[([0], [1])], [([2], [2])]]).1,
    val_all_eval_mode_and_batch_averages.2.1 (fun _ => (1:ℚ)/2) 1 1 2
      (by intro e; norm_num),
    val_all_eval_mode_and_batch_averages.2.2 (fun _ => (1:ℚ)/2) 1 1 2
      (by norm_num) (by intro e; norm_num)⟩

/-- C9: each of the program's two exception-handling callbacks (the GUI's
`choose_image1` and `choose_image2`, the only `try`/`except` blocks in the
program) recovers from any exception by showing `Cancelled Load` in the
status bar and changing nothing else; and for every dialog outcome neither
callback loads or displays any image. -/
theorem gui_callbacks_catch_and_cancel :
    (∀ f ∈ gui_exception_handling_callbacks, ∀ st : GuiState,
      f TryOutcome.exn st = { st with statusMessage := some "Cancelled Load" }) ∧
    (∀ f ∈ gui_exception_handling_callbacks, ∀ (d : TryOutcome) (st : GuiState),
      (f d st).displayedImages = st.displayedImages) := by
  constructor
  · intro f hf st
    simp only [gui_exception_handling_callbacks, List.mem_cons,
      List.not_mem_nil, or_false] at hf
    rcases hf with rfl | rfl
    · rfl
    · rfl
  · intro f hf d st
    simp only [gui_exception_handling_callbacks, List.mem_cons,
      List.not_mem_nil, or_false] at hf
    rcases hf with rfl | rfl
    · cases d with
      | ok path =>
          by_cases hp : path = "" <;> simp [choose_image1, hp]
      | exn => rfl
    · cases d with
      | ok path =>
          by_cases hp : path = "" <;> simp [choose_image2, hp]
      | exn => rfl

/-- Witness for C9: the exception path of the first callback shows
`Cancelled Load`, and a successful selection displays no image. -/
theorem gui_callbacks_catch_and_cancel_witness :
    choose_image1 TryOutcome.exn ⟨none, none, none, [], []⟩
        = { (⟨none, none, none, [], []⟩ : GuiState) with
            statusMessage := some "Cancelled Load" } ∧
    (choose_image2 (TryOutcome.ok "im.png") ⟨none, none, none, [], []⟩).displayedImages
        = (⟨none, none, none, [], []⟩ : GuiState).displayedImages :=
  ⟨gui_callbacks_catch_and_cancel.1 choose_image1 (List.mem_cons_self _ _)
      ⟨none, none, none, [], []⟩,
    gui_callbacks_catch_and_cancel.2 choose_image2
      (List.mem_cons_of_mem _ (List.mem_cons_self _ _))
      (TryOutcome.ok "im.png") ⟨none, none, none, [], []⟩⟩

/-- C4: the multi-task training loop draws one batch from every per-task
loader in lockstep (step `i` lists each loader's `i`-th batch, in loader
order, up to the shortest loader) and `concat_samples` merges them into a
single combined sample with the same keys as the first task's sample, each
key holding the per-task blocks appended in loader order, so its batch size
is the sum of the per-task batch sizes. -/
theorem multitask_lockstep_and_concat
    (loaders : List (List Sample)) (s0 : Sample) (rest : List Sample)
    (hkeys : ∀ s ∈ rest, ∀ p ∈ s0, (s.lookup p.1).isSome) :
    ((∀ (i : ℕ) (batches : List Sample), (lockstep loaders)[i]? = some batches →
        batches.length = loaders.length ∧
          ∀ j : ℕ, batches[j]? = loaders[j]?.bind (fun l => l[i]?)) ∧
      (lockstep loaders).length = (loaders.map List.length).min?.getD 0) ∧
    ∃ comb, concat_samples (s0 :: rest) = some comb ∧
      comb.map Prod.fst = s0.map Prod.fst ∧
      comb = s0.map (fun p =>
        (p.1, p.2 ++ (rest.map (fun s => (s.lookup p.1).getD [])).flatten)) ∧
      ∀ p ∈ comb, ∃ q ∈ s0, p.1 = q.1 ∧
        p.2.length = q.2.length
          + (rest.map (fun s => ((s.lookup q.1).getD []).length)).sum := by
  constructor
  · constructor
    · intro i batches hb
      simp only [lockstep, List.getElem?_map] at hb
      cases hmin : (loaders.map List.length).min? with
      | none =>
          rw [hmin] at hb
          simp at hb
      | some n =>
          rw [hmin, Option.getD_some] at hb
          have hi : i < n := by
            by_contra hge
            rw [List.getElem?_eq_none (by simpa using Nat.le_of_not_lt hge)] at hb
            cases hb
          rw [List.getElem?_range hi] at hb
          obtain rfl : loaders.filterMap (fun l => l[i]?) = batches := by
            simpa using hb
          have hsome : ∀ l ∈ loaders, (l[i]?).isSome := by
            intro l hl
            have hn : n ≤ l.length :=
              nat_min?_le hmin l.length (List.mem_map.mpr ⟨l, hl, rfl⟩)
            rw [List.getElem?_eq_getElem (by omega)]
            rfl
          exact filterMap_all_some (fun l => l[i]?) loaders hsome
    · simp [lockstep]
  · refine ⟨_, concat_go_eq rest s0 hkeys, ?_, rfl, ?_⟩
    · rw [List.map_map]
      rfl
    · intro p hp
      obtain ⟨q, hq, rfl⟩ := List.mem_map.mp hp
      refine ⟨q, hq, rfl, ?_⟩
      rw [List.length_append, List.length_flatten, List.map_map]
      rfl

/-- Witness for C4 at two concrete loaders of `real`/`sim` samples. -/
theorem multitask_lockstep_and_concat_witness :
    ((∀ (i : ℕ) (batches : List Sample),
        (lockstep [[[("real", [[1]]), ("sim", [[2]])]],
          [[("real", [[3]]), ("sim", [[4]])]]])[i]? = some batches →
        batches.length = ([[[("real", [[1]]), ("sim", [[2]])]],
          [[("real", [[3]]), ("sim", [[4]])]]] : List (List Sample)).length ∧
          ∀ j : ℕ, batches[j]? = ([[[("real", [[1]]), ("sim", [[2]])]],
            [[("real", [[3]]), ("sim", [[4]])]]] : List (List Sample))[j]?.bind
              (fun l => l[i]?)) ∧
      (lockstep [[[("real", [[1]]), ("sim", [[2]])]],
        [[("real", [[3]]), ("sim", [[4]])]]]).length
        = (([[[("real", [[1]]), ("sim", [[2]])]],
            [[("real", [[3]]), ("sim", [[4]])]]] : List (List Sample)).map
              List.length).min?.getD 0) ∧
    ∃ comb, concat_samples [[("real", [[1]]), ("sim", [[2]])],
        [("real", [[3]]), ("sim", [[4]])]] = some comb ∧
      comb.map Prod.fst = ([("real", [[1]]), ("sim", [[2]])] : Sample).map Prod.fst ∧
      comb = ([("real", [[1]]), ("sim", [[2]])] : Sample).map (fun p =>
        (p.1, p.2 ++ (([[("real", [[3]]), ("sim", [[4]])]] : List Sample).map
          (fun s => (s.lookup p.1).getD [])).flatten)) ∧
      ∀ p ∈ comb, ∃ q ∈ ([("real", [[1]]), ("sim", [[2]])] : Sample), p.1 = q.1 ∧
        p.2.length = q.2.length
          + (([[("real", [[3]]), ("sim", [[4]])]] : List Sample).map
              (fun s => ((s.lookup q.1).getD []).length)).sum :=
  multitask_lockstep_and_concat
    [[[("real", [[1]]), ("sim", [[2]])]], [[("real", [[3]]), ("sim", [[4]])]]]
    [("real", [[1]]), ("sim", [[2]])] [[("real", [[3]]), ("sim", [[4]])]]
    (by decide)

end Real2Sim
